import Mathlib

/-
  Verification development for the Selective Repeat implementation in src/sr.c.

  The model is a shallow embedding of the C code:
  * C int values are modelled as Int; the C `%` operator (truncating) is Int.tmod.
  * struct pkt is the Pkt structure; char payload[20] is a function Fin 20 → Int.
  * The module-level statics of each side form a state record; each entry point is a
    function from inputs and state to Option (state × emitted events).  An event records
    a call to tolayer3, tolayer5, starttimer or stoptimer; the statistics counters
    incremented by sr.c are kept inside the state records.
  * An array access buffer[i] with i outside 0..WINDOWSIZE-1 is undefined behaviour in C;
    the model makes any such access return none, so a transition producing some is
    exactly an execution of the C code that never leaves the arrays.
  * C statics are zero-initialised before A_init and B_init run, so the initial buffers
    hold all-zero packets.
-/

def WINDOWSIZE : Int := 6

def SEQSPACE : Int := 12

def NOTINUSE : Int := -1

/-- Packet structure, mirroring struct pkt: seqnum, acknum, checksum, payload[20]. -/
structure Pkt where
  seqnum : Int
  acknum : Int
  checksum : Int
  payload : Fin 20 → Int

/-- Message structure, mirroring struct msg: data[20]. -/
structure Msg where
  data : Fin 20 → Int

/-- Payload bytes as the list payload[0], ..., payload[19]. -/
def payloadList (p : Pkt) : List Int :=
  List.ofFn p.payload

/-- ComputeChecksum from sr.c: seqnum + acknum + the sum of the 20 payload bytes.
    The checksum field itself is never read. -/
def ComputeChecksum (packet : Pkt) : Int :=
  packet.seqnum + packet.acknum + (payloadList packet).sum

/-- IsCorrupted from sr.c, transcribed exactly: the C code returns -1 when
    packet.checksum == ComputeChecksum(packet) and 0 otherwise; under the declared
    _Bool return type (stdbool.h is included) the -1 converts to true, so the
    function yields true exactly when the checksum MATCHES. -/
def IsCorrupted (packet : Pkt) : Bool :=
  if packet.checksum = ComputeChecksum packet then true else false

/-- The cyclic window-membership test, written identically in A_output, A_input and
    B_input: ((seqfirst <= seqlast) && (x >= seqfirst && x <= seqlast)) ||
    ((seqfirst > seqlast) && (x >= seqfirst || x <= seqlast)). -/
def inWindowCheck (seqfirst seqlast x : Int) : Bool :=
  (decide (seqfirst ≤ seqlast) && (decide (seqfirst ≤ x) && decide (x ≤ seqlast))) ||
  (decide (seqlast < seqfirst) && (decide (seqfirst ≤ x) || decide (x ≤ seqlast)))

/-- The slot-index computation shared by A_output, A_input and B_input:
    if (x >= seqfirst) index = x - seqfirst; else index = WINDOWSIZE - seqfirst + x. -/
def slotIndex (seqfirst x : Int) : Int :=
  if seqfirst ≤ x then x - seqfirst else WINDOWSIZE - seqfirst + x

/-- Read buffer[i]; none models an out-of-bounds access (undefined behaviour in C). -/
def bufGet (buf : Fin 6 → Pkt) (i : Int) : Option Pkt :=
  if h : 0 ≤ i ∧ i < 6 then some (buf ⟨i.toNat, by omega⟩) else none

/-- Write buffer[i]; none models an out-of-bounds access (undefined behaviour in C). -/
def bufSet (buf : Fin 6 → Pkt) (i : Int) (p : Pkt) : Option (Fin 6 → Pkt) :=
  if h : 0 ≤ i ∧ i < 6 then some (Function.update buf ⟨i.toNat, by omega⟩ p) else none

/-- C string equality of two payload arrays as strcmp sees them: compare until a
    mismatch (unequal) or a common 0 byte (equal).  Both lists here always have
    length 20; two arrays that agree on all 20 bytes without any 0 byte are treated
    as equal. -/
def cstrEqAux : List Int → List Int → Bool
  | x :: xs, y :: ys => if x = y then (if x = 0 then true else cstrEqAux xs ys) else false
  | _, _ => true

/- ********* Sender (A) ********* -/

/-- Sender state: the statics buffer, windowcount, A_baseseqnum, A_nextseqnum of sr.c,
    plus the statistics counters the sender code increments. -/
structure AState where
  buffer : Fin 6 → Pkt
  windowcount : Int
  A_baseseqnum : Int
  A_nextseqnum : Int
  window_full : Int
  packets_resent : Int
  new_ACKs : Int
  total_ACKs_received : Int

/-- Observable calls the sender makes into the emulator. -/
inductive AEvent where
  | toLayer3 (p : Pkt)
  | startTimer
  | stopTimer

/-- The packet A_output builds: seqnum = A_nextseqnum, acknum = NOTINUSE, payload copied
    from the message, checksum computed over those fields. -/
def mkSendPkt (next : Int) (message : Msg) : Pkt :=
  { seqnum := next, acknum := NOTINUSE, payload := message.data,
    checksum := ComputeChecksum { seqnum := next, acknum := NOTINUSE, checksum := 0, payload := message.data } }

/-- A_output from sr.c: if A_nextseqnum is inside the window, build the packet, store it
    at the computed slot, raise windowcount, send it, start the timer when it is the
    first packet of the window, and advance A_nextseqnum; otherwise count the message
    as blocked in window_full. -/
def A_output (message : Msg) (s : AState) : Option (AState × List AEvent) :=
  if inWindowCheck s.A_baseseqnum ((s.A_baseseqnum + WINDOWSIZE - 1).tmod SEQSPACE) s.A_nextseqnum then
    match bufSet s.buffer (slotIndex s.A_baseseqnum s.A_nextseqnum) (mkSendPkt s.A_nextseqnum message) with
    | none => none
    | some buf1 =>
      some ({ s with
                buffer := buf1, windowcount := s.windowcount + 1,
                A_nextseqnum := (s.A_nextseqnum + 1).tmod SEQSPACE },
            AEvent.toLayer3 (mkSendPkt s.A_nextseqnum message) ::
              (if s.A_nextseqnum = s.A_baseseqnum then [AEvent.startTimer] else []))
  else
    some ({ s with window_full := s.window_full + 1 }, [])

/-- The C field assignment buffer[index].acknum = value applied to a packet value. -/
def setAcknum (q : Pkt) (a : Int) : Pkt :=
  { q with acknum := a }

/-- The duplicate test and marking step of A_input: if buffer[index].acknum == NOTINUSE
    the ACK is new (count it, lower windowcount, record the acknum in the slot),
    otherwise it is a duplicate and nothing changes. -/
def markAck (packet : Pkt) (index : Int) (s : AState) : Option AState :=
  match bufGet s.buffer index with
  | none => none
  | some slot =>
    if slot.acknum = NOTINUSE then
      match bufSet s.buffer index (setAcknum slot packet.acknum) with
      | none => none
      | some buf1 =>
        some { s with new_ACKs := s.new_ACKs + 1, windowcount := s.windowcount - 1, buffer := buf1 }
    else
      some s

/-- The consecutive-ACK count of A_input: how many leading slots have
    buffer[i].acknum != NOTINUSE && strcmp(buffer[i].payload, "") != 0. -/
def aRunNat (buf : Fin 6 → Pkt) : Nat :=
  ((List.ofFn buf).takeWhile (fun p => decide (p.acknum ≠ NOTINUSE) && decide (p.payload 0 ≠ 0))).length

/-- One iteration of the buffer-compaction loop of A_input: the condition reads
    buffer[i + ackcount] (out of bounds whenever i + ackcount ≥ WINDOWSIZE) and
    buffer[i], and on success writes buffer[i] = buffer[i + ackcount]. -/
def shiftAStep (ackcount nextseq : Int) (b : Fin 6 → Pkt) (i : Nat) : Option (Fin 6 → Pkt) :=
  match bufGet b ((i : Int) + ackcount) with
  | none => none
  | some q =>
    match bufGet b (i : Int) with
    | none => none
    | some cur =>
      if q.acknum = NOTINUSE ∨ (cur.seqnum + ackcount).tmod SEQSPACE = nextseq then
        bufSet b (i : Int) q
      else
        some b

/-- The buffer-compaction loop of A_input, iterated for i = 0..WINDOWSIZE-1. -/
def shiftA (buf : Fin 6 → Pkt) (ackcount nextseq : Int) : Option (Fin 6 → Pkt) :=
  (List.range 6).foldlM (fun b i => shiftAStep ackcount nextseq b i) buf

/-- The window-slide branch of A_input (taken when packet.acknum == seqfirst): count the
    consecutive ACKs, advance A_baseseqnum by that count mod SEQSPACE, run the
    compaction loop, stop the timer and restart it when windowcount > 0. -/
def slideA (s : AState) : Option (AState × List AEvent) :=
  match shiftA s.buffer ((aRunNat s.buffer : Nat) : Int) s.A_nextseqnum with
  | none => none
  | some buf2 =>
    some ({ s with
              A_baseseqnum := (s.A_baseseqnum + ((aRunNat s.buffer : Nat) : Int)).tmod SEQSPACE,
              buffer := buf2 },
          AEvent.stopTimer :: (if s.windowcount > 0 then [AEvent.startTimer] else []))

/-- The non-base branch of A_input (packet.acknum != seqfirst): write the acknum into
    the slot once more. -/
def updateAckOnly (packet : Pkt) (index : Int) (s : AState) : Option (AState × List AEvent) :=
  match bufGet s.buffer index with
  | none => none
  | some q =>
    match bufSet s.buffer index (setAcknum q packet.acknum) with
    | none => none
    | some buf2 => some ({ s with buffer := buf2 }, [])

/-- The in-window part of A_input: mark the ACK, then slide the window when the ACK is
    for seqfirst, else only update the slot. -/
def A_input_inwindow (packet : Pkt) (seqfirst index : Int) (s : AState) : Option (AState × List AEvent) :=
  match markAck packet index s with
  | none => none
  | some s1 =>
    if packet.acknum = seqfirst then slideA s1 else updateAckOnly packet index s1

/-- A_input after the corruption gate: the window test on packet.acknum; an ACK outside
    the window changes nothing further. -/
def A_input_checked (packet : Pkt) (s : AState) : Option (AState × List AEvent) :=
  if inWindowCheck s.A_baseseqnum ((s.A_baseseqnum + WINDOWSIZE - 1).tmod SEQSPACE) packet.acknum then
    A_input_inwindow packet s.A_baseseqnum (slotIndex s.A_baseseqnum packet.acknum) s
  else
    some (s, [])

/-- A_input from sr.c: packets with IsCorrupted(packet) false are processed (and
    total_ACKs_received is incremented first); all others are dropped silently. -/
def A_input (packet : Pkt) (s : AState) : Option (AState × List AEvent) :=
  if IsCorrupted packet = false then
    A_input_checked packet { s with total_ACKs_received := s.total_ACKs_received + 1 }
  else
    some (s, [])

/-- A_timerinterrupt from sr.c: resend buffer[0], count it in packets_resent, restart
    the timer. -/
def A_timerinterrupt (s : AState) : Option (AState × List AEvent) :=
  match bufGet s.buffer 0 with
  | none => none
  | some p0 =>
    some ({ s with packets_resent := s.packets_resent + 1 },
          [AEvent.toLayer3 p0, AEvent.startTimer])

/-- All-zero payload (the zero-initialised statics). -/
def zeroPayload : Fin 20 → Int := fun _ => 0

/-- All-zero packet: the content of every buffer slot before any write. -/
def zeroPkt : Pkt := { seqnum := 0, acknum := 0, checksum := 0, payload := zeroPayload }

/-- Sender state after A_init: A_baseseqnum = 0, A_nextseqnum = 0, windowcount = 0, and
    the zero-initialised statics everywhere else. -/
def A_init0 : AState :=
  { buffer := fun _ => zeroPkt, windowcount := 0, A_baseseqnum := 0, A_nextseqnum := 0,
    window_full := 0, packets_resent := 0, new_ACKs := 0, total_ACKs_received := 0 }

/- ********* Receiver (B) ********* -/

/-- Receiver state: the statics B_buffer, B_baseseqnum, receivelast of sr.c plus the
    packets_received counter. -/
structure BState where
  B_buffer : Fin 6 → Pkt
  B_baseseqnum : Int
  receivelast : Int
  packets_received : Int

/-- Observable calls the receiver makes into the emulator; toLayer5 records the packet
    whose payload is handed to the application. -/
inductive BEvent where
  | toLayer3 (p : Pkt)
  | toLayer5 (p : Pkt)

/-- The ACK packet B_input builds: acknum echoes the received seqnum, seqnum = NOTINUSE,
    payload filled with the character 0 (ASCII 48), checksum computed. -/
def mkAckPkt (packet : Pkt) : Pkt :=
  { seqnum := NOTINUSE, acknum := packet.seqnum, payload := fun _ => 48,
    checksum := ComputeChecksum { seqnum := NOTINUSE, acknum := packet.seqnum, checksum := 0,
                                  payload := fun _ => 48 } }

/-- The consecutive-packet count of B_input: how many leading slots have
    B_buffer[i].acknum >= 0 && strcmp(B_buffer[i].payload, "") != 0. -/
def bRunNat (buf : Fin 6 → Pkt) : Nat :=
  ((List.ofFn buf).takeWhile (fun p => decide (0 ≤ p.acknum) && decide (p.payload 0 ≠ 0))).length

/-- One iteration of the buffer-compaction loop of B_input: guarded by
    (i + pckcount) <= (receivelast + 1); the read B_buffer[i + pckcount] is out of
    bounds whenever i + pckcount ≥ WINDOWSIZE. -/
def shiftBStep (pckcount rlast : Int) (b : Fin 6 → Pkt) (i : Nat) : Option (Fin 6 → Pkt) :=
  if (i : Int) + pckcount ≤ rlast + 1 then
    match bufGet b ((i : Int) + pckcount) with
    | none => none
    | some q => bufSet b (i : Int) q
  else
    some b

/-- The buffer-compaction loop of B_input, iterated for i = 0..WINDOWSIZE-1. -/
def shiftB (buf : Fin 6 → Pkt) (pckcount rlast : Int) : Option (Fin 6 → Pkt) :=
  (List.range 6).foldlM (fun b i => shiftBStep pckcount rlast b i) buf

/-- The window-slide branch of B_input (taken when packet.seqnum == seqfirst): count the
    consecutive packets, advance B_baseseqnum by that count mod SEQSPACE, run the
    compaction loop. -/
def slideB (s : BState) : Option BState :=
  match shiftB s.B_buffer ((bRunNat s.B_buffer : Nat) : Int) s.receivelast with
  | none => none
  | some buf2 =>
    some { s with
             B_baseseqnum := (s.B_baseseqnum + ((bRunNat s.B_buffer : Nat) : Int)).tmod SEQSPACE,
             B_buffer := buf2 }

/-- The in-window part of B_input: the duplicate test compares the stored payload with
    the arriving payload by strcmp; for a non-duplicate the packet (with acknum set to
    its seqnum) is stored, the window slides when the packet is at seqfirst, and the
    arriving packet's payload is handed to the application. -/
def B_input_inwindow (packet : Pkt) (seqfirst index : Int) (s : BState) : Option (BState × List BEvent) :=
  match bufGet s.B_buffer index with
  | none => none
  | some slot =>
    if cstrEqAux (payloadList slot) (payloadList packet) = false then
      match bufSet s.B_buffer index { packet with acknum := packet.seqnum } with
      | none => none
      | some buf1 =>
        if packet.seqnum = seqfirst then
          match slideB { s with B_buffer := buf1 } with
          | none => none
          | some s3 =>
            some (s3, [BEvent.toLayer3 (mkAckPkt packet), BEvent.toLayer5 { packet with acknum := packet.seqnum }])
        else
          some ({ s with B_buffer := buf1 },
                [BEvent.toLayer3 (mkAckPkt packet), BEvent.toLayer5 { packet with acknum := packet.seqnum }])
    else
      some (s, [BEvent.toLayer3 (mkAckPkt packet)])

/-- B_input after the corruption gate: the ACK is sent unconditionally; the window test
    on packet.seqnum decides whether the packet is also buffered; receivelast is raised
    to the slot index before the duplicate test. -/
def B_input_checked (packet : Pkt) (s : BState) : Option (BState × List BEvent) :=
  if inWindowCheck s.B_baseseqnum ((s.B_baseseqnum + WINDOWSIZE - 1).tmod SEQSPACE) packet.seqnum then
    B_input_inwindow packet s.B_baseseqnum (slotIndex s.B_baseseqnum packet.seqnum)
      { s with receivelast :=
          (if s.receivelast > slotIndex s.B_baseseqnum packet.seqnum then s.receivelast
           else slotIndex s.B_baseseqnum packet.seqnum) }
  else
    some (s, [BEvent.toLayer3 (mkAckPkt packet)])

/-- B_input from sr.c: packets with IsCorrupted(packet) false are processed (and
    packets_received is incremented first); all others are dropped with no ACK and no
    state change. -/
def B_input (packet : Pkt) (s : BState) : Option (BState × List BEvent) :=
  if IsCorrupted packet = false then
    B_input_checked packet { s with packets_received := s.packets_received + 1 }
  else
    some (s, [])

/-- Receiver state after B_init: B_baseseqnum = 0, receivelast = -1, zero-initialised
    statics everywhere else. -/
def B_init0 : BState :=
  { B_buffer := fun _ => zeroPkt, B_baseseqnum := 0, receivelast := -1, packets_received := 0 }

/- ********* Executions ********* -/

/-- The packets whose payload was handed to tolayer5, in order. -/
def deliveredOf (l : List BEvent) : List Pkt :=
  l.filterMap fun e => match e with
    | BEvent.toLayer5 p => some p
    | _ => none

/-- The packets handed to tolayer3 by the receiver (the ACKs), in order. -/
def acksOf (l : List BEvent) : List Pkt :=
  l.filterMap fun e => match e with
    | BEvent.toLayer3 p => some p
    | _ => none

/-- Run B_input over a list of arriving packets, collecting all events. -/
def runB : List Pkt → BState → Option (BState × List BEvent)
  | [], s => some (s, [])
  | p :: ps, s =>
    match B_input p s with
    | none => none
    | some (s1, ev) =>
      match runB ps s1 with
      | none => none
      | some (s2, ev2) => some (s2, ev ++ ev2)

/-- A sender-side event: a message from layer 5, an arriving packet, or a timer expiry. -/
inductive ACmd where
  | output (m : Msg)
  | input (p : Pkt)
  | timer

/-- Dispatch one sender event. -/
def stepA (c : ACmd) (s : AState) : Option (AState × List AEvent) :=
  match c with
  | ACmd.output m => A_output m s
  | ACmd.input p => A_input p s
  | ACmd.timer => A_timerinterrupt s

/-- Run a list of sender events. -/
def runA : List ACmd → AState → Option AState
  | [], s => some s
  | c :: cs, s =>
    match stepA c s with
    | none => none
    | some (s1, _) => runA cs s1

/-- Sender states reachable from A_init by sequences of A_output, A_input and
    A_timerinterrupt events that never access the buffer out of bounds. -/
inductive ReachableA : AState → Prop where
  | init : ReachableA A_init0
  | output {m s s1 ev} : ReachableA s → A_output m s = some (s1, ev) → ReachableA s1
  | input {p s s1 ev} : ReachableA s → A_input p s = some (s1, ev) → ReachableA s1
  | timer {s s1 ev} : ReachableA s → A_timerinterrupt s = some (s1, ev) → ReachableA s1

/-- Receiver states reachable from B_init by sequences of B_input events that never
    access the buffer out of bounds. -/
inductive ReachableB : BState → Prop where
  | init : ReachableB B_init0
  | input {p s s1 ev} : ReachableB s → B_input p s = some (s1, ev) → ReachableB s1

/- ********* Concrete inputs used by the claims ********* -/

/-- Payload from a list of bytes, padded with zeros to 20 bytes. -/
def mkPayload (l : List Int) : Fin 20 → Int := fun i => l.getD (i : Nat) 0

/-- Packet with sequence number 1 and stored checksum 0, which differs from its computed
    sum 66; the inverted corruption gate therefore processes it. -/
def pktSeq1 : Pkt := { seqnum := 1, acknum := 0, checksum := 0, payload := mkPayload [65] }

/-- Packet with sequence number 0 and stored checksum 0, which differs from its computed
    sum 66; the inverted corruption gate therefore processes it. -/
def pktSeq0 : Pkt := { seqnum := 0, acknum := 0, checksum := 0, payload := mkPayload [66] }

/-- An ACK for sequence number 0 whose stored checksum 5 differs from its computed sum 0,
    so the inverted corruption gate processes it. -/
def ackPkt0 : Pkt := { seqnum := 0, acknum := 0, checksum := 5, payload := zeroPayload }

/-- An uncorrupted ACK for sequence number 0: its stored checksum equals its computed
    sum -1. -/
def goodAck0 : Pkt := { seqnum := -1, acknum := 0, checksum := -1, payload := zeroPayload }

/-- A message with a nonzero first payload byte. -/
def msgA : Msg := { data := mkPayload [65] }

/-- Receiver state after pktSeq1 has been processed from B_init0. -/
def stateAfterP1 : BState :=
  (Option.map Prod.fst (B_input pktSeq1 B_init0)).getD B_init0

/- ********* Auxiliary counting definitions and the sender invariant ********* -/

/-- Option analogue of checking a Bool predicate under some. -/
def optAll {α : Type} (f : α → Bool) : Option α → Bool
  | none => true
  | some a => f a

/- ********* The sender window invariant ********* -/

/-- Indicator of a slot awaiting an ACK (acknum still NOTINUSE). -/
def ninInd (q : Pkt) : Nat := if q.acknum = NOTINUSE then 1 else 0

/-- Number of buffer slots whose acknum is NOTINUSE: stored but not yet acknowledged. -/
def ninCount (buf : Fin 6 → Pkt) : Nat :=
  (Finset.univ.filter fun i : Fin 6 => (buf i).acknum = NOTINUSE).card

/-- Number of populated receive-buffer slots, by the same populated test the code's
    consecutive-count loop uses (acknum >= 0 and nonempty payload). -/
def bufPopCount (buf : Fin 6 → Pkt) : Nat :=
  (Finset.univ.filter fun i : Fin 6 => 0 ≤ (buf i).acknum ∧ (buf i).payload 0 ≠ 0).card

/- ********* Helper lemmas ********* -/

/-- bufGet at an index equal to a valid slot number. -/
theorem bufGet_eq (buf : Fin 6 → Pkt) (i : Int) (j : Fin 6) (h : i = ((j : Nat) : Int)) :
    bufGet buf i = some (buf j) := by
  subst h
  have hj := j.isLt
  rw [bufGet, dif_pos (⟨by omega, by omega⟩ : 0 ≤ (((j : Nat) : Int)) ∧ (((j : Nat) : Int)) < 6)]
  simp only [Int.toNat_natCast, Fin.eta]

/-- bufSet at an index equal to a valid slot number. -/
theorem bufSet_eq (buf : Fin 6 → Pkt) (i : Int) (p : Pkt) (j : Fin 6) (h : i = ((j : Nat) : Int)) :
    bufSet buf i p = some (Function.update buf j p) := by
  subst h
  have hj := j.isLt
  rw [bufSet, dif_pos (⟨by omega, by omega⟩ : 0 ≤ (((j : Nat) : Int)) ∧ (((j : Nat) : Int)) < 6)]
  simp only [Int.toNat_natCast, Fin.eta]

/-- Truncating remainder is the identity below the modulus. -/
theorem tmod_small {a b : Int} (h0 : 0 ≤ a) (h : a < b) : a.tmod b = a := by
  rw [Int.tmod_eq_emod h0 (by omega)]
  exact Int.emod_eq_of_lt h0 h

/-- The window test with base 0 and last 5 is the plain interval test. -/
theorem inWindow05 (x : Int) : inWindowCheck 0 5 x = true ↔ 0 ≤ x ∧ x ≤ 5 := by
  rw [inWindowCheck]
  simp only [Bool.or_eq_true, Bool.and_eq_true, decide_eq_true_eq]
  omega

/-- A foldlM over Option is none as soon as the list contains an element on which the
    step function is none for every state. -/
theorem foldlM_option_stuck {α β : Type} (f : β → α → Option β) (a : α)
    (hf : ∀ b, f b a = none) :
    ∀ (l : List α), a ∈ l → ∀ b, l.foldlM f b = none := by
  intro l
  induction l with
  | nil => intro h; cases h
  | cons x xs ih =>
    intro ha b
    rw [List.foldlM_cons]
    rcases List.mem_cons.mp ha with h | h
    · subst h
      rw [hf b]
      rfl
    · cases hx : f b x with
      | none => rfl
      | some b2 =>
        exact ih h b2

/-- A foldlM over Option whose every step returns the state unchanged is the identity. -/
theorem foldlM_option_id {α β : Type} (f : β → α → Option β) :
    ∀ (l : List α), (∀ b a, a ∈ l → f b a = some b) → ∀ b, l.foldlM f b = some b := by
  intro l
  induction l with
  | nil => intro _ b; rfl
  | cons x xs ih =>
    intro hf b
    rw [List.foldlM_cons]
    rw [hf b x (List.mem_cons_self x xs)]
    exact ih (fun b a ha => hf b a (List.mem_cons_of_mem x ha)) b

/-- The consecutive-ACK count never exceeds the buffer size. -/
theorem aRunNat_le (buf : Fin 6 → Pkt) : aRunNat buf ≤ 6 := by
  rw [aRunNat]
  have hsub : List.Sublist ((List.ofFn buf).takeWhile
      (fun p : Pkt => decide (p.acknum ≠ NOTINUSE) && decide (p.payload 0 ≠ 0))) (List.ofFn buf) :=
    List.takeWhile_sublist _
  have h := hsub.length_le
  simpa using h

/-- With a positive ACK run the compaction loop of A_input reads buffer[6] and dies. -/
theorem shiftA_stuck (buf : Fin 6 → Pkt) (nextseq : Int) (k : Nat) (h1 : 1 ≤ k) (h6 : k ≤ 6) :
    shiftA buf ((k : Nat) : Int) nextseq = none := by
  rw [shiftA]
  apply foldlM_option_stuck _ (6 - k) _ _ (List.mem_range.mpr (by omega))
  intro b
  rw [shiftAStep]
  have hnone : bufGet b ((((6 - k : Nat) : Nat) : Int) + ((k : Nat) : Int)) = none := by
    rw [bufGet, dif_neg]
    omega
  rw [hnone]

/-- With a zero ACK run the compaction loop of A_input only rewrites each slot with
    itself. -/
theorem shiftA_zero (buf : Fin 6 → Pkt) (nextseq : Int) : shiftA buf 0 nextseq = some buf := by
  rw [shiftA]
  apply foldlM_option_id
  intro b i hi
  have hi6 : i < 6 := List.mem_range.mp hi
  have hv : ((i : Nat) : Int) = (((⟨i, hi6⟩ : Fin 6) : Nat) : Int) := by simp
  rw [shiftAStep]
  have hg : bufGet b (((i : Nat) : Int) + 0) = some (b ⟨i, hi6⟩) := by
    rw [add_zero]
    exact bufGet_eq b _ ⟨i, hi6⟩ hv
  rw [hg]
  rw [bufGet_eq b _ ⟨i, hi6⟩ hv]
  dsimp only
  by_cases hc : (b ⟨i, hi6⟩).acknum = NOTINUSE ∨ ((b ⟨i, hi6⟩).seqnum + 0).tmod SEQSPACE = nextseq
  · rw [if_pos hc]
    rw [bufSet_eq b _ _ ⟨i, hi6⟩ hv]
    rw [Function.update_eq_self]
  · rw [if_neg hc]

theorem ninCount_eq_sum (buf : Fin 6 → Pkt) :
    ninCount buf = ∑ i : Fin 6, ninInd (buf i) := by
  rw [ninCount, Finset.card_filter]
  apply Finset.sum_congr rfl
  intro i _
  rw [ninInd]

theorem ninCount_le (buf : Fin 6 → Pkt) : ninCount buf ≤ 6 := by
  have h := Finset.card_filter_le (Finset.univ : Finset (Fin 6))
    (fun i : Fin 6 => (buf i).acknum = NOTINUSE)
  simpa using h

theorem ninCount_update (buf : Fin 6 → Pkt) (j : Fin 6) (q : Pkt) :
    ninCount (Function.update buf j q) + ninInd (buf j) = ninCount buf + ninInd q := by
  rw [ninCount_eq_sum, ninCount_eq_sum]
  have h1 : (∑ i : Fin 6, ninInd (Function.update buf j q i)) =
      ∑ i : Fin 6, Function.update (fun i => ninInd (buf i)) j (ninInd q) i := by
    apply Finset.sum_congr rfl
    intro i _
    by_cases h : i = j
    · subst h
      rw [Function.update_same, Function.update_same]
    · rw [Function.update_noteq h, Function.update_noteq h]
  rw [h1, Finset.sum_update_of_mem (Finset.mem_univ j)]
  have h2 : (∑ i : Fin 6, ninInd (buf i)) =
      ninInd (buf j) + ∑ x ∈ Finset.univ \ {j}, ninInd (buf x) :=
    Finset.sum_eq_add_sum_diff_singleton (Finset.mem_univ j) _
  omega

/-- Inductive invariant of the sender: the base never moves off 0 in any defined
    execution (every window slide with a positive ACK run dies on the out-of-bounds
    read, see shiftA_stuck), A_nextseqnum stays in 0..6, windowcount equals the number
    of NOTINUSE slots, and every slot at or beyond A_nextseqnum is not NOTINUSE. -/
def AInv (s : AState) : Prop :=
  s.A_baseseqnum = 0 ∧ 0 ≤ s.A_nextseqnum ∧ s.A_nextseqnum ≤ 6 ∧
  s.windowcount = ((ninCount s.buffer : Nat) : Int) ∧
  ∀ i : Fin 6, s.A_nextseqnum ≤ ((i : Nat) : Int) → (s.buffer i).acknum ≠ NOTINUSE

theorem AInv_init : AInv A_init0 := by
  refine ⟨rfl, by decide, by decide, by decide, ?_⟩
  intro i _
  show (0 : Int) ≠ NOTINUSE
  decide

theorem setAcknum_acknum (q : Pkt) (a : Int) : (setAcknum q a).acknum = a := rfl

theorem AInv_output (m : Msg) (s s1 : AState) (ev : List AEvent) (h : AInv s)
    (hst : A_output m s = some (s1, ev)) : AInv s1 := by
  obtain ⟨hb, hn0, hn6, hwc, hsl⟩ := h
  rw [A_output, hb] at hst
  rw [(by decide : ((0 : Int) + WINDOWSIZE - 1).tmod SEQSPACE = 5)] at hst
  by_cases hcond : inWindowCheck 0 5 s.A_nextseqnum = true
  · rw [hcond, if_pos rfl] at hst
    obtain ⟨hx0, hx5⟩ := (inWindow05 _).mp hcond
    have hidx : slotIndex 0 s.A_nextseqnum = s.A_nextseqnum := by
      rw [slotIndex, if_pos hx0]
      ring
    set j : Fin 6 := ⟨s.A_nextseqnum.toNat, by omega⟩ with hjdef
    have hjv : s.A_nextseqnum = ((j : Nat) : Int) := by
      rw [hjdef]
      simp [Int.toNat_of_nonneg hx0]
    rw [hidx, bufSet_eq _ _ _ j hjv] at hst
    dsimp only at hst
    simp only [Option.some.injEq, Prod.mk.injEq] at hst
    obtain ⟨hs1, -⟩ := hst
    subst hs1
    have htm : (s.A_nextseqnum + 1).tmod SEQSPACE = s.A_nextseqnum + 1 :=
      tmod_small (by omega) (by show s.A_nextseqnum + 1 < (12 : Int); omega)
    unfold AInv
    dsimp only
    refine ⟨rfl, ?_, ?_, ?_, ?_⟩
    · rw [htm]
      omega
    · rw [htm]
      omega
    · have hcnt := ninCount_update s.buffer j (mkSendPkt s.A_nextseqnum m)
      have hold : ninInd (s.buffer j) = 0 := by
        simp only [ninInd]
        rw [if_neg (hsl j (le_of_eq hjv))]
      have hnew : ninInd (mkSendPkt s.A_nextseqnum m) = 1 := by
        have hak : (mkSendPkt s.A_nextseqnum m).acknum = NOTINUSE := rfl
        simp only [ninInd]
        rw [if_pos hak]
      omega
    · intro i hi
      rw [htm] at hi
      have hij : i ≠ j := by
        intro he
        rw [he, ← hjv] at hi
        omega
      rw [Function.update_noteq hij]
      exact hsl i (by omega)
  · rw [eq_false_of_ne_true hcond, if_neg (by simp)] at hst
    simp only [Option.some.injEq, Prod.mk.injEq] at hst
    obtain ⟨hs1, -⟩ := hst
    subst hs1
    exact ⟨rfl, hn0, hn6, hwc, hsl⟩

theorem AInv_slide (s s1 : AState) (ev : List AEvent) (h : AInv s)
    (hst : slideA s = some (s1, ev)) : AInv s1 := by
  obtain ⟨hb, hn0, hn6, hwc, hsl⟩ := h
  unfold slideA at hst
  cases hrun : aRunNat s.buffer with
  | zero =>
    simp only [hrun, Nat.cast_zero] at hst
    rw [shiftA_zero] at hst
    dsimp only at hst
    simp only [Option.some.injEq, Prod.mk.injEq] at hst
    obtain ⟨hs1, -⟩ := hst
    subst hs1
    unfold AInv
    dsimp only
    refine ⟨?_, hn0, hn6, hwc, hsl⟩
    rw [hb]
    decide
  | succ n =>
    have hle := aRunNat_le s.buffer
    rw [hrun] at hle
    simp only [hrun] at hst
    rw [shiftA_stuck s.buffer s.A_nextseqnum (n + 1) (by omega) (by omega)] at hst
    cases hst

theorem AInv_updateAck (packet : Pkt) (s s1 : AState) (ev : List AEvent) (h : AInv s)
    (ha0 : 0 ≤ packet.acknum) (ha5 : packet.acknum ≤ 5)
    (hnot : (s.buffer ⟨packet.acknum.toNat, by omega⟩).acknum ≠ NOTINUSE)
    (hst : updateAckOnly packet packet.acknum s = some (s1, ev)) : AInv s1 := by
  obtain ⟨hb, hn0, hn6, hwc, hsl⟩ := h
  set j : Fin 6 := ⟨packet.acknum.toNat, by omega⟩ with hjdef
  have hjv : packet.acknum = ((j : Nat) : Int) := by
    rw [hjdef]
    simp [Int.toNat_of_nonneg ha0]
  rw [updateAckOnly, bufGet_eq _ _ j hjv] at hst
  dsimp only at hst
  rw [bufSet_eq _ _ _ j hjv] at hst
  dsimp only at hst
  simp only [Option.some.injEq, Prod.mk.injEq] at hst
  obtain ⟨hs1, -⟩ := hst
  subst hs1
  unfold AInv
  dsimp only
  refine ⟨hb, hn0, hn6, ?_, ?_⟩
  · have hcnt := ninCount_update s.buffer j (setAcknum (s.buffer j) packet.acknum)
    have hold : ninInd (s.buffer j) = 0 := by
      simp only [ninInd]
      rw [if_neg hnot]
    have hnew : ninInd (setAcknum (s.buffer j) packet.acknum) = 0 := by
      simp only [ninInd]
      rw [if_neg]
      rw [setAcknum_acknum]
      show ¬(packet.acknum = (-1 : Int))
      omega
    omega
  · intro i hi
    by_cases hij : i = j
    · subst hij
      rw [Function.update_same, setAcknum_acknum]
      show ¬(packet.acknum = (-1 : Int))
      omega
    · rw [Function.update_noteq hij]
      exact hsl i hi

theorem AInv_inwindow (packet : Pkt) (s s1 : AState) (ev : List AEvent) (h : AInv s)
    (ha0 : 0 ≤ packet.acknum) (ha5 : packet.acknum ≤ 5)
    (hst : A_input_inwindow packet 0 packet.acknum s = some (s1, ev)) : AInv s1 := by
  obtain ⟨hb, hn0, hn6, hwc, hsl⟩ := h
  set j : Fin 6 := ⟨packet.acknum.toNat, by omega⟩ with hjdef
  have hjv : packet.acknum = ((j : Nat) : Int) := by
    rw [hjdef]
    simp [Int.toNat_of_nonneg ha0]
  rw [A_input_inwindow, markAck, bufGet_eq _ _ j hjv] at hst
  dsimp only at hst
  by_cases hdup : (s.buffer j).acknum = NOTINUSE
  · rw [if_pos hdup, bufSet_eq _ _ _ j hjv] at hst
    dsimp only at hst
    have hInv1 : AInv { s with
        new_ACKs := s.new_ACKs + 1, windowcount := s.windowcount - 1,
        buffer := Function.update s.buffer j (setAcknum (s.buffer j) packet.acknum) } := by
      unfold AInv
      dsimp only
      refine ⟨hb, hn0, hn6, ?_, ?_⟩
      · have hcnt := ninCount_update s.buffer j (setAcknum (s.buffer j) packet.acknum)
        have hold : ninInd (s.buffer j) = 1 := by
          simp only [ninInd]
          rw [if_pos hdup]
        have hnew : ninInd (setAcknum (s.buffer j) packet.acknum) = 0 := by
          simp only [ninInd]
          rw [if_neg]
          rw [setAcknum_acknum]
          show ¬(packet.acknum = (-1 : Int))
          omega
        omega
      · intro i hi
        by_cases hij : i = j
        · subst hij
          rw [Function.update_same, setAcknum_acknum]
          show ¬(packet.acknum = (-1 : Int))
          omega
        · rw [Function.update_noteq hij]
          exact hsl i hi
    by_cases hbase : packet.acknum = 0
    · rw [if_pos hbase] at hst
      exact AInv_slide _ _ _ hInv1 hst
    · rw [if_neg hbase] at hst
      have hnot : (Function.update s.buffer j (setAcknum (s.buffer j) packet.acknum) j).acknum
          ≠ NOTINUSE := by
        rw [Function.update_same, setAcknum_acknum]
        show ¬(packet.acknum = (-1 : Int))
        omega
      exact AInv_updateAck packet _ _ _ hInv1 ha0 ha5 hnot hst
  · rw [if_neg hdup] at hst
    dsimp only at hst
    by_cases hbase : packet.acknum = 0
    · rw [if_pos hbase] at hst
      exact AInv_slide _ _ _ ⟨hb, hn0, hn6, hwc, hsl⟩ hst
    · rw [if_neg hbase] at hst
      exact AInv_updateAck packet _ _ _ ⟨hb, hn0, hn6, hwc, hsl⟩ ha0 ha5 hdup hst

theorem AInv_checked (packet : Pkt) (s s1 : AState) (ev : List AEvent) (h : AInv s)
    (hst : A_input_checked packet s = some (s1, ev)) : AInv s1 := by
  have hb := h.1
  rw [A_input_checked, hb] at hst
  rw [(by decide : ((0 : Int) + WINDOWSIZE - 1).tmod SEQSPACE = 5)] at hst
  by_cases hcond : inWindowCheck 0 5 packet.acknum = true
  · rw [hcond, if_pos rfl] at hst
    obtain ⟨hx0, hx5⟩ := (inWindow05 _).mp hcond
    rw [(show slotIndex 0 packet.acknum = packet.acknum by rw [slotIndex, if_pos hx0]; ring)] at hst
    exact AInv_inwindow packet _ _ _ h hx0 hx5 hst
  · rw [eq_false_of_ne_true hcond, if_neg (by simp)] at hst
    simp only [Option.some.injEq, Prod.mk.injEq] at hst
    obtain ⟨hs1, -⟩ := hst
    subst hs1
    exact h

theorem AInv_input (packet : Pkt) (s s1 : AState) (ev : List AEvent) (h : AInv s)
    (hst : A_input packet s = some (s1, ev)) : AInv s1 := by
  rw [A_input] at hst
  by_cases hg : IsCorrupted packet = false
  · rw [if_pos hg] at hst
    have h2 : AInv { s with total_ACKs_received := s.total_ACKs_received + 1 } :=
      ⟨h.1, h.2.1, h.2.2.1, h.2.2.2.1, h.2.2.2.2⟩
    exact AInv_checked packet _ _ _ h2 hst
  · rw [if_neg hg] at hst
    simp only [Option.some.injEq, Prod.mk.injEq] at hst
    obtain ⟨hs1, -⟩ := hst
    subst hs1
    exact h

theorem AInv_timer (s s1 : AState) (ev : List AEvent) (h : AInv s)
    (hst : A_timerinterrupt s = some (s1, ev)) : AInv s1 := by
  obtain ⟨hb, hn0, hn6, hwc, hsl⟩ := h
  rw [A_timerinterrupt] at hst
  rw [bufGet_eq _ _ (0 : Fin 6) (by simp)] at hst
  dsimp only at hst
  simp only [Option.some.injEq, Prod.mk.injEq] at hst
  obtain ⟨hs1, -⟩ := hst
  subst hs1
  exact ⟨hb, hn0, hn6, hwc, hsl⟩

theorem AInv_reachable (s : AState) (h : ReachableA s) : AInv s := by
  induction h with
  | init => exact AInv_init
  | output hr hst ih => exact AInv_output _ _ _ _ ih hst
  | input hr hst ih => exact AInv_input _ _ _ _ ih hst
  | timer hr hst ih => exact AInv_timer _ _ _ ih hst

/-- C9: in every sender state reachable through A_output, A_input and A_timerinterrupt
    from the initial state, 0 ≤ windowcount ≤ WINDOWSIZE; and in every reachable
    receiver state the receive buffer holds at most WINDOWSIZE populated packets. -/
theorem window_invariant (s : AState) (t : BState) (hs : ReachableA s) (ht : ReachableB t) :
    (0 ≤ s.windowcount ∧ s.windowcount ≤ WINDOWSIZE) ∧
    ((bufPopCount t.B_buffer : Nat) : Int) ≤ WINDOWSIZE := by
  have hinv := AInv_reachable s hs
  have hwc := hinv.2.2.2.1
  have h6 : ninCount s.buffer ≤ 6 := ninCount_le s.buffer
  have hW : WINDOWSIZE = 6 := rfl
  refine ⟨⟨?_, ?_⟩, ?_⟩
  · rw [hwc]
    omega
  · rw [hwc, hW]
    omega
  · have hple : bufPopCount t.B_buffer ≤ 6 := by
      have hcard := Finset.card_filter_le (Finset.univ : Finset (Fin 6))
        (fun i : Fin 6 => 0 ≤ (t.B_buffer i).acknum ∧ (t.B_buffer i).payload 0 ≠ 0)
      simpa [bufPopCount] using hcard
    rw [hW]
    omega

/-- C9 witness: the invariant holds in the initial states, which are reachable. -/
theorem window_invariant_witness :
    (0 ≤ A_init0.windowcount ∧ A_init0.windowcount ≤ WINDOWSIZE) ∧
    ((bufPopCount B_init0.B_buffer : Nat) : Int) ≤ WINDOWSIZE :=
  window_invariant A_init0 B_init0 ReachableA.init ReachableB.init

/- ********* The claims ********* -/

/-- C1: claimed: IsCorrupted(p) is true iff p.checksum differs from ComputeChecksum(p).
    The code has it inverted: IsCorrupted returns true exactly when the stored checksum
    EQUALS the computed sum, and in particular flags the all-zero packet (whose checksum
    matches) as corrupted. -/
theorem isCorrupted_inverted :
    (∀ p : Pkt, IsCorrupted p = true ↔ p.checksum = ComputeChecksum p) ∧
    IsCorrupted zeroPkt = true ∧ zeroPkt.checksum = ComputeChecksum zeroPkt := by
  refine ⟨fun p => ?_, by decide, by decide⟩
  rw [IsCorrupted]
  by_cases h : p.checksum = ComputeChecksum p
  · simp [h]
  · simp [h]

/-- C2: claimed: B_input drops corrupted packets (checksum mismatch) without an ACK and
    sends exactly one ACK for every other packet.  The code does the reverse: the
    uncorrupted all-zero packet is dropped with no ACK and no state change, while the
    checksum-mismatched packet pktSeq1 is processed and acknowledged with acknum 1. -/
theorem b_input_ack_gate_inverted :
    B_input zeroPkt B_init0 = some (B_init0, []) ∧
    ((B_input pktSeq1 B_init0).map fun r => (acksOf r.2).map Pkt.acknum) = some [1] := by
  exact ⟨rfl, by decide⟩

/-- C3: claimed: delivered sequence numbers are strictly increasing with no gaps or
    repeats over every execution.  Counterexample execution: packets with sequence
    numbers 1 then 0 arrive (both pass the inverted corruption gate); the receiver
    delivers payload of packet 1 immediately on arrival and then payload of packet 0,
    so the delivered sequence is [1, 0]. -/
theorem b_delivery_out_of_order :
    ((runB [pktSeq1, pktSeq0] B_init0).map fun r => (deliveredOf r.2).map Pkt.seqnum) =
      some [1, 0] ∧
    ¬ List.Sorted (fun a b => a < b) [(1 : Int), 0] := by
  exact ⟨by decide, by decide⟩

/-- C4: claimed: when the packet at the window base arrives, the payloads of the whole
    contiguous run (here packets 0 and 1) are delivered in that invocation.  The code
    advances the base by the run length 2 but calls tolayer5 exactly once, with only the
    arriving packet 0's payload. -/
theorem b_base_run_single_delivery :
    ((B_input pktSeq0 stateAfterP1).map fun r =>
        ((deliveredOf r.2).map Pkt.seqnum, r.1.B_baseseqnum)) = some ([0], 2) := by
  decide

/-- C5: claimed: every buffer access uses an index in [0, WINDOWSIZE).  The wraparound
    branch of the shared index computation yields -1 for the in-window sequence number 0
    when the window base is 7, so A_input on that state dies on a negative index; and
    the compaction loop of A_input reads buffer[i + ackcount] past the array end even in
    the plain run send-packet-0-then-receive-its-ACK, which therefore has no defined
    result. -/
theorem buffer_index_out_of_range :
    (inWindowCheck 7 ((7 + WINDOWSIZE - 1).tmod SEQSPACE) 0 = true ∧ slotIndex 7 0 = -1) ∧
    A_input ackPkt0 { A_init0 with A_baseseqnum := 7 } = none ∧
    runA [ACmd.output msgA, ACmd.input ackPkt0] A_init0 = none := by
  exact ⟨⟨by decide, by decide⟩, rfl, rfl⟩

/-- C6: A_timerinterrupt retransmits exactly the packet in the base slot buffer[0],
    increments packets_resent by one, restarts the timer, and leaves every other part of
    the sender state (base, next, windowcount, buffer) unchanged. -/
theorem a_timerinterrupt_resends_base_only (s : AState) :
    A_timerinterrupt s =
      some ({ s with packets_resent := s.packets_resent + 1 },
            [AEvent.toLayer3 (s.buffer 0), AEvent.startTimer]) := by
  rfl

/-- C7: a submission while A_nextseqnum is outside the sender window is rejected:
    window_full is incremented, no packet is sent, and base, next, windowcount and the
    buffer are unchanged. -/
theorem a_output_window_full_reject (message : Msg) (s : AState)
    (h : inWindowCheck s.A_baseseqnum ((s.A_baseseqnum + WINDOWSIZE - 1).tmod SEQSPACE)
           s.A_nextseqnum = false) :
    A_output message s = some ({ s with window_full := s.window_full + 1 }, []) := by
  rw [A_output, h]
  rfl

/-- C7 witness: with base 0 and next sequence number 6 the window [0, 5] is full and the
    seventh submission only increments window_full. -/
theorem a_output_window_full_reject_witness :
    A_output msgA { A_init0 with A_nextseqnum := 6 } =
      some ({ { A_init0 with A_nextseqnum := 6 } with
                window_full := { A_init0 with A_nextseqnum := 6 }.window_full + 1 }, []) :=
  a_output_window_full_reject msgA { A_init0 with A_nextseqnum := 6 } (by decide)

/-- C8: an ACK whose stored checksum equals the computed sum (uncorrupted in the claim's
    sense), whose acknum is inside the sender window, and whose buffer slot is already
    marked acknowledged, leaves the whole sender state unchanged and emits nothing — no
    send and no timer action.  (In the code this happens because the inverted
    IsCorrupted routes every checksum-valid ACK to the drop branch before any
    processing.) -/
theorem a_input_duplicate_ack_noop (packet : Pkt) (s : AState)
    (hck : packet.checksum = ComputeChecksum packet)
    (hwin : inWindowCheck s.A_baseseqnum ((s.A_baseseqnum + WINDOWSIZE - 1).tmod SEQSPACE)
              packet.acknum = true)
    (hdup : optAll (fun q => decide (q.acknum ≠ NOTINUSE))
              (bufGet s.buffer (slotIndex s.A_baseseqnum packet.acknum)) = true) :
    A_input packet s = some (s, []) := by
  have hg : IsCorrupted packet = true := by
    rw [IsCorrupted, if_pos hck]
  rw [A_input, hg]
  rfl

/-- C8 witness: the checksum-valid ACK goodAck0 for sequence number 0, arriving in the
    initial sender state whose slot 0 is not marked NOTINUSE, is an in-window duplicate
    and leaves the state untouched. -/
theorem a_input_duplicate_ack_noop_witness :
    A_input goodAck0 A_init0 = some (A_init0, []) :=
  a_input_duplicate_ack_noop goodAck0 A_init0 (by decide) (by decide) (by decide)

/-- Every successful B_input_inwindow either delivers nothing or delivers exactly the
    arriving packet with its acknum overwritten. -/
theorem b_inwindow_delivery (packet : Pkt) (seqfirst index : Int) (s : BState)
    (r : BState × List BEvent) (h : B_input_inwindow packet seqfirst index s = some r) :
    deliveredOf r.2 = [] ∨ deliveredOf r.2 = [{ packet with acknum := packet.seqnum }] := by
  rw [B_input_inwindow] at h
  cases hg : bufGet s.B_buffer index with
  | none => rw [hg] at h; cases h
  | some slot =>
    rw [hg] at h
    dsimp only at h
    by_cases hd : cstrEqAux (payloadList slot) (payloadList packet) = false
    · rw [if_pos hd] at h
      cases hs : bufSet s.B_buffer index { packet with acknum := packet.seqnum } with
      | none => rw [hs] at h; cases h
      | some buf1 =>
        rw [hs] at h
        dsimp only at h
        by_cases hb : packet.seqnum = seqfirst
        · rw [if_pos hb] at h
          cases hsl : slideB { s with B_buffer := buf1 } with
          | none => rw [hsl] at h; cases h
          | some s3 =>
            rw [hsl] at h
            dsimp only at h
            cases h
            right; rfl
        · rw [if_neg hb] at h
          cases h
          right; rfl
    · rw [if_neg hd] at h
      cases h
      left; rfl

/-- C10: a single invocation of B_input hands at most one payload to the application,
    and when it does, that payload is the arriving packet's payload, never one of a
    previously buffered packet. -/
theorem b_input_single_delivery (packet : Pkt) (s : BState) (r : BState × List BEvent)
    (h : B_input packet s = some r) :
    (deliveredOf r.2).length ≤ 1 ∧
    ∀ q ∈ deliveredOf r.2, q.payload = packet.payload := by
  rw [B_input] at h
  by_cases hg : IsCorrupted packet = false
  · rw [if_pos hg] at h
    rw [B_input_checked] at h
    by_cases hw : inWindowCheck s.B_baseseqnum
        ((s.B_baseseqnum + WINDOWSIZE - 1).tmod SEQSPACE) packet.seqnum = true
    · rw [hw] at h
      rw [if_pos rfl] at h
      rcases b_inwindow_delivery _ _ _ _ _ h with h0 | h1
      · rw [h0]; exact ⟨by simp, by simp⟩
      · rw [h1]
        refine ⟨by simp, ?_⟩
        intro q hq
        simp at hq
        rw [hq]
    · rw [eq_false_of_ne_true hw] at h
      rw [if_neg (by simp)] at h
      cases h
      exact ⟨by simp [deliveredOf], by simp [deliveredOf]⟩
  · rw [if_neg hg] at h
    cases h
    exact ⟨by simp [deliveredOf], by simp [deliveredOf]⟩

/-- C10 witness: the arrival of pktSeq1 in the initial receiver state delivers exactly
    one payload, the arriving packet's own. -/
theorem b_input_single_delivery_witness :
    (deliveredOf ((B_input pktSeq1 B_init0).getD (B_init0, [])).2).length ≤ 1 := by
  have h := b_input_single_delivery pktSeq1 B_init0
    ((B_input pktSeq1 B_init0).getD (B_init0, [])) (by rfl)
  exact h.1
